import Mathlib

/-!
Verification of the bo-nedaber matching engine.

This file gives a shallow embedding of the core matching engine:
the user-state data model (`models.py`), the in-memory indexed store
(`mem_db.py`), and the command handlers (`bo_nedaber.py`).
Timestamps and durations are embedded as `Int` (integer seconds),
uids as `Nat`, Python dictionaries as association lists, and fallible
code (Python `assert`, dictionary `KeyError`) as `Option`, where
`none` models a crash.
-/

namespace BoNedaber

abbrev Uid := Nat

inductive Sex
  | MALE
  | FEMALE
  deriving DecidableEq, Repr

inductive Opinion
  | PRO
  | CON
  deriving DecidableEq, Repr

/-- The closed set of callback commands (`models.py`, `Cmd`). -/
inductive Cmd
  | SCHED
  | MALE_PRO
  | MALE_CON
  | FEMALE_PRO
  | FEMALE_CON
  | IM_AVAILABLE_NOW
  | STOP_SEARCHING
  | IM_NO_LONGER_AVAILABLE
  | ANSWER_AVAILABLE
  | ANSWER_UNAVAILABLE
  | S1
  | S2
  | S3
  | S4
  | S5
  | S_DIDNT_TALK
  | S_NO_ANSWER
  deriving DecidableEq, Repr

/-- The tagged variant of user states (`models.py`). Each constructor
carries the fields of the corresponding dataclass; shared fields of
`WithOpinionBase` (`name`, `sex`, `opinion`) are duplicated per variant,
as in the Python dataclasses. `Option` models Python `| None` fields. -/
inductive UserState
  | InitialState (uid : Uid)
  | WaitingForOpinion (uid : Uid) (name : String)
  | WaitingForName (uid : Uid) (name : String) (sex : Sex) (opinion : Opinion)
  | Inactive (uid : Uid) (name : String) (sex : Sex) (opinion : Opinion)
      (survey_ts : Option Int)
  | Asking (uid : Uid) (name : String) (sex : Sex) (opinion : Opinion)
      (searching_until next_refresh : Int) (asked_uid : Uid)
      (asking_until : Int) (waited_by : Option Uid)
  | Waiting (uid : Uid) (name : String) (sex : Sex) (opinion : Opinion)
      (searching_until next_refresh : Int) (waiting_for : Option Uid)
  | Active (uid : Uid) (name : String) (sex : Sex) (opinion : Opinion)
      (since : Int)
  | Asked (uid : Uid) (name : String) (sex : Sex) (opinion : Opinion)
      (untilTs : Int) (asked_by : Uid)
  deriving DecidableEq, Repr

namespace UserState

def uid : UserState → Uid
  | InitialState u => u
  | WaitingForOpinion u _ => u
  | WaitingForName u _ _ _ => u
  | Inactive u _ _ _ _ => u
  | Asking u _ _ _ _ _ _ _ _ => u
  | Waiting u _ _ _ _ _ _ => u
  | Active u _ _ _ _ => u
  | Asked u _ _ _ _ _ => u

/-- The derived `sched` attribute (`models.py`, property `sched`). -/
def sched : UserState → Option Int
  | Inactive _ _ _ _ survey_ts => survey_ts
  | Asking _ _ _ _ _ next_refresh _ _ _ => some next_refresh
  | Waiting _ _ _ _ _ next_refresh _ => some next_refresh
  | Asked _ _ _ _ untilTs _ => some untilTs
  | _ => none

end UserState

/-- `mem_db.get_search_score`: the priority for who we should connect to;
lower means higher priority. `none` means not eligible. -/
def get_search_score (state : UserState) (opinion : Opinion) :
    Option (Int × Int) :=
  match state with
  | .Waiting _ _ _ op searching_until _ _ =>
      if op = opinion then some (1, searching_until) else none
  | .Asking _ _ _ op _ _ _ asking_until waited_by =>
      if op = opinion ∧ waited_by = none then some (2, asking_until) else none
  | .Active _ _ _ op since =>
      if op = opinion then some (3, -since) else none
  | _ => none

/-- `bo_nedaber.other_opinion`. -/
def other_opinion : Opinion → Opinion
  | .PRO => .CON
  | .CON => .PRO

-- Protocol constants (`bo_nedaber.py`), in integer seconds.

def ASKING_DURATION : Int := 19
def SEARCH_DURATION : Int := 60
def SEARCH_UPDATE_INTERVAL : Int := 5
def SURVEY_DURATION : Int := 60

/-- `bo_nedaber.round_up`. Python `%` on a positive second argument
agrees with `Int.emod`. -/
def round_up (n m : Int) : Int := n + (-n) % m

-- Association-list operations embedding Python dict / pqdict updates.

/-- Lookup of a key (first occurrence), like a Python dict read. -/
def alookup {β : Type} : List (Uid × β) → Uid → Option β
  | [], _ => none
  | (k, v) :: t, u => if k = u then some v else alookup t u

/-- `d[k] = v`: replace the value of an existing key in place, else append. -/
def upsert {β : Type} : List (Uid × β) → Uid → β → List (Uid × β)
  | [], k, v => [(k, v)]
  | (k1, v1) :: t, k, v =>
    if k1 = k then (k, v) :: t else (k1, v1) :: upsert t k v

/-- `d.pop(k, None)`: remove a key. -/
def removeKey {β : Type} (l : List (Uid × β)) (k : Uid) : List (Uid × β) :=
  l.filter (fun p => p.1 ≠ k)

/-- The in-memory store (`mem_db.MemDb`): the state map and the derived
indices (one priority map per opinion, and the sched priority map). -/
structure MemDb where
  states : List (Uid × UserState)
  by_score_pro : List (Uid × (Int × Int))
  by_score_con : List (Uid × (Int × Int))
  by_sched : List (Uid × Int)
  deriving DecidableEq, Repr

namespace MemDb

def empty : MemDb := ⟨[], [], [], []⟩

def by_score (d : MemDb) : Opinion → List (Uid × (Int × Int))
  | .PRO => d.by_score_pro
  | .CON => d.by_score_con

/-- `MemDb.set`: store the state and update both indices. -/
def set (d : MemDb) (state : UserState) : MemDb :=
  let u := state.uid
  { states := upsert d.states u state
    by_sched :=
      match state.sched with
      | none => removeKey d.by_sched u
      | some t => upsert d.by_sched u t
    by_score_pro :=
      match get_search_score state .PRO with
      | none => removeKey d.by_score_pro u
      | some sc => upsert d.by_score_pro u sc
    by_score_con :=
      match get_search_score state .CON with
      | none => removeKey d.by_score_con u
      | some sc => upsert d.by_score_con u sc }

/-- `MemDb.get`: a missing row reads as the virtual `InitialState`. -/
def get (d : MemDb) (u : Uid) : UserState :=
  (alookup d.states u).getD (.InitialState u)

end MemDb

/-- Lexicographic comparison used to pick the priority-map top entry:
lower score wins, ties broken by uid. -/
def entryBefore (e1 e2 : Uid × (Int × Int)) : Bool :=
  decide (e1.2.1 < e2.2.1 ∨ (e1.2.1 = e2.2.1 ∧
    (e1.2.2 < e2.2.2 ∨ (e1.2.2 = e2.2.2 ∧ e1.1 ≤ e2.1))))

/-- The minimum entry of a priority map (pqdict `top`). -/
def minEntry : List (Uid × (Int × Int)) → Option (Uid × (Int × Int))
  | [] => none
  | e :: t =>
    match minEntry t with
    | none => some e
    | some e2 => if entryBefore e e2 then some e else some e2

def isCandidateState : UserState → Bool
  | .Waiting _ _ _ _ _ _ _ => true
  | .Asking _ _ _ _ _ _ _ _ _ => true
  | .Active _ _ _ _ _ => true
  | _ => false

/-- `MemDb.search_for_user`: the highest-priority user with the given
opinion, read through the score index. The outer `none` models a crash
(a key in the index that is missing from the state map, or a state that
fails the `Waiting | Asking | Active` assertion); `some none` means no
candidate. -/
def search_for_user (d : MemDb) (opinion : Opinion) :
    Option (Option UserState) :=
  match minEntry (d.by_score opinion) with
  | none => some none
  | some (u, _) =>
    match alookup d.states u with
    | none => none
    | some state =>
      if isCandidateState state then some (some state) else none

/-- The abstract messages emitted toward users (`models.py`, `Msg`).
Each carries the addressee uid first, like the Python dataclasses. -/
inductive Msg
  | UnexpectedReqMsg (uid : Uid)
  | WelcomeMsg (uid : Uid)
  | WhatIsYourOpinionMsg (uid : Uid)
  | TypeNameMsg (uid : Uid)
  | RegisteredMsg (uid : Uid)
  | InactiveMsg (uid : Uid)
  | SearchingMsg (uid : Uid)
  | UpdateSearchingMsg (uid : Uid) (seconds_left : Int)
  | FoundPartnerMsg (uid : Uid) (other_uid : Uid) (other_name : String)
      (other_sex : Sex)
  | AreYouAvailableMsg (uid : Uid) (other_sex : Sex)
  | AfterAskingTimedOut (uid : Uid)
  | AfterReplyUnavailableMsg (uid : Uid)
  | SearchTimedOutMsg (uid : Uid)
  | AfterStopSearchMsg (uid : Uid)
  | HowWasTheCallMsg (uid : Uid)
  | ThanksForAnsweringMsg (uid : Uid) (reply : Cmd)
  deriving DecidableEq, Repr

/-- The common fields of `WithOpinionBase`, when present. -/
def UserState.withOp? : UserState → Option (Uid × String × Sex × Opinion)
  | .InitialState _ => none
  | .WaitingForOpinion _ _ => none
  | .WaitingForName u n s o => some (u, n, s, o)
  | .Inactive u n s o _ => some (u, n, s, o)
  | .Asking u n s o _ _ _ _ _ => some (u, n, s, o)
  | .Waiting u n s o _ _ _ => some (u, n, s, o)
  | .Active u n s o _ => some (u, n, s, o)
  | .Asked u n s o _ _ => some (u, n, s, o)

/-- `bo_nedaber.search_for_match`. Returns `none` on an assertion
failure; otherwise the updated store, the `is_found` flag, and the
emitted messages, following the source line by line. The entry match on
`withOp?` reflects the `WithOpinion` type bound of the parameter. -/
def search_for_match (d : MemDb) (ts : Int) (state : UserState) :
    Option (MemDb × Bool × List Msg) :=
  match state.withOp? with
  | none => none
  | some (uid, name, sex, opinion) =>
    -- if isinstance(state, SearchingBase) reuse the window, else restart it
    let su_nr : Int × Int :=
      match state with
      | .Asking _ _ _ _ su nr _ _ _ => (su, nr)
      | .Waiting _ _ _ _ su nr _ => (su, nr)
      | _ => (ts + SEARCH_DURATION, ts + SEARCH_UPDATE_INTERVAL)
    let searching_until := su_nr.1
    let next_refresh := su_nr.2
    match search_for_user d (other_opinion opinion) with
    | none => none
    | some none =>
      some (d.set (.Waiting uid name sex opinion searching_until next_refresh
        none), false, [])
    | some (some state2) =>
      match state2 with
      | .Waiting uid2 name2 sex2 op2 _ _ waiting_for2 =>
        let step1 : Option MemDb :=
          match waiting_for2 with
          | none => some d
          | some wf =>
            -- state3 = tx.get(state2.waiting_for); assert Asking;
            -- assert state3.waited_by == state2.waiting_for
            match d.get wf with
            | .Asking uid3 name3 sex3 op3 su3 nr3 asked3 au3 waited3 =>
              if waited3 = some wf then
                some (d.set (.Asking uid3 name3 sex3 op3 su3 nr3 asked3 au3
                  none))
              else none
            | _ => none
        match step1 with
        | none => none
        | some d1 =>
          let d2 := d1.set (.Inactive uid name sex opinion
            (some (ts + SURVEY_DURATION)))
          let d3 := d2.set (.Inactive uid2 name2 sex2 op2
            (some (ts + SURVEY_DURATION)))
          some (d3, true,
            [Msg.FoundPartnerMsg uid uid2 name2 sex2,
             Msg.FoundPartnerMsg uid2 uid name sex])
      | .Asking uid2 name2 sex2 op2 su2 nr2 asked2 au2 waited2 =>
        -- assert state2.waited_by is None
        if waited2 = none then
          if au2 ≤ searching_until then
            some ((d.set (.Waiting uid name sex opinion searching_until
              next_refresh (some uid2))).set
              (.Asking uid2 name2 sex2 op2 su2 nr2 asked2 au2 (some uid)),
              false, [])
          else
            some (d.set (.Waiting uid name sex opinion searching_until
              next_refresh none), false, [])
        else none
      | .Active uid2 name2 sex2 op2 _ =>
        let asking_until := ts + ASKING_DURATION
        if asking_until ≤ searching_until then
          some (((d.set (.Asking uid name sex opinion searching_until
            next_refresh uid2 asking_until none)).set
            (.Asked uid2 name2 sex2 op2 asking_until uid)),
            false, [Msg.AreYouAvailableMsg uid2 sex])
        else
          some (d.set (.Waiting uid name sex opinion searching_until
            next_refresh none), false, [])
      | _ => none

/-- `bo_nedaber.handle_cmd_waiting_for_opinion`. -/
def handle_cmd_waiting_for_opinion (d : MemDb) (uid : Uid) (name : String)
    (cmd : Cmd) : MemDb × List Msg :=
  match cmd with
  | .MALE_PRO => (d.set (.WaitingForName uid name .MALE .PRO),
      [Msg.TypeNameMsg uid])
  | .MALE_CON => (d.set (.WaitingForName uid name .MALE .CON),
      [Msg.TypeNameMsg uid])
  | .FEMALE_PRO => (d.set (.WaitingForName uid name .FEMALE .PRO),
      [Msg.TypeNameMsg uid])
  | .FEMALE_CON => (d.set (.WaitingForName uid name .FEMALE .CON),
      [Msg.TypeNameMsg uid])
  | _ => (d, [Msg.UnexpectedReqMsg uid])

def isSurveyCmd (cmd : Cmd) : Bool :=
  decide (cmd = .S1 ∨ cmd = .S2 ∨ cmd = .S3 ∨ cmd = .S4 ∨ cmd = .S5 ∨
    cmd = .S_DIDNT_TALK ∨ cmd = .S_NO_ANSWER)

/-- `bo_nedaber.handle_cmd_inactive`. -/
def handle_cmd_inactive (d : MemDb) (ts : Int) (uid : Uid) (name : String)
    (sex : Sex) (opinion : Opinion) (survey_ts : Option Int) (cmd : Cmd) :
    Option (MemDb × List Msg) :=
  if cmd = .IM_AVAILABLE_NOW then
    match search_for_match d ts (.Inactive uid name sex opinion survey_ts) with
    | none => none
    | some (d1, is_found, msgs) =>
      some (d1, if is_found then msgs else msgs ++ [Msg.SearchingMsg uid])
  else if cmd = .SCHED then
    some (d.set (.Inactive uid name sex opinion none),
      [Msg.HowWasTheCallMsg uid])
  else if isSurveyCmd cmd then
    some (d, [Msg.ThanksForAnsweringMsg uid cmd])
  else
    some (d, [Msg.UnexpectedReqMsg uid])

/-- `bo_nedaber.handle_cmd_active`. -/
def handle_cmd_active (d : MemDb) (ts : Int) (uid : Uid) (name : String)
    (sex : Sex) (opinion : Opinion) (since : Int) (cmd : Cmd) :
    Option (MemDb × List Msg) :=
  if cmd = .IM_AVAILABLE_NOW then
    match search_for_match d ts (.Active uid name sex opinion since) with
    | none => none
    | some (d1, is_found, msgs) =>
      some (d1, if is_found then msgs else msgs ++ [Msg.SearchingMsg uid])
  else if cmd = .IM_NO_LONGER_AVAILABLE then
    some (d.set (.Inactive uid name sex opinion none),
      [Msg.AfterReplyUnavailableMsg uid])
  else
    some (d, [Msg.UnexpectedReqMsg uid])

/-- The release of links in the timeout and stop paths of
`handle_cmd_searching`, after the state of `self` has been replaced.
`d1` is the store after that first `tx.set`; `msgs` the message so far.
For `Asking`: release the `Asked` partner and re-search for the
waited-by `Waiting` user, if any. For `Waiting`: clear the pointed-to
`Asking.waited_by`. `none` models an assertion failure. -/
def release_links (d1 : MemDb) (ts : Int) (state : UserState)
    (msgs : List Msg) : Option (MemDb × List Msg) :=
  match state with
  | .Asking _ _ _ _ _ _ asked_uid _ waited_by =>
    match d1.get asked_uid with
    | .Asked uid2 name2 sex2 op2 _ _ =>
      let d2 := d1.set (.Inactive uid2 name2 sex2 op2 none)
      let msgs2 := msgs ++ [Msg.AfterAskingTimedOut asked_uid]
      match waited_by with
      | none => some (d2, msgs2)
      | some w =>
        match d2.get w with
        | wst@(.Waiting _ _ _ _ _ _ _) =>
          match search_for_match d2 ts wst with
          | none => none
          | some (d3, _, msgs3) => some (d3, msgs2 ++ msgs3)
        | _ => none
    | _ => none
  | .Waiting _ _ _ _ _ _ waiting_for =>
    match waiting_for with
    | none => some (d1, msgs)
    | some a =>
      match d1.get a with
      | .Asking uid3 name3 sex3 op3 su3 nr3 asked3 au3 _ =>
        some (d1.set (.Asking uid3 name3 sex3 op3 su3 nr3 asked3 au3 none),
          msgs)
      | _ => none
  | _ => none

/-- `bo_nedaber.handle_cmd_searching`. Only called with `Asking` or
`Waiting` states (the `Searching` union); other states are unreachable
from the dispatch and map to `none`. -/
def handle_cmd_searching (d : MemDb) (ts : Int) (state : UserState)
    (cmd : Cmd) : Option (MemDb × List Msg) :=
  match state with
  | .Asking uid name sex opinion su nr asked_uid au wb =>
    if cmd = .SCHED ∧ ts < su then
      if 0 < su - ts then
        some (d.set (.Asking uid name sex opinion su
          (min su (ts + SEARCH_UPDATE_INTERVAL)) asked_uid au wb),
          [Msg.UpdateSearchingMsg uid
            (round_up (su - ts) SEARCH_UPDATE_INTERVAL)])
      else none
    else if cmd = .SCHED then
      release_links (d.set (.Active uid name sex opinion ts)) ts state
        [Msg.SearchTimedOutMsg uid]
    else if cmd = .STOP_SEARCHING then
      release_links (d.set (.Inactive uid name sex opinion none)) ts state
        [Msg.AfterStopSearchMsg uid]
    else
      some (d, [Msg.UnexpectedReqMsg uid])
  | .Waiting uid name sex opinion su nr wf =>
    if cmd = .SCHED ∧ ts < su then
      if 0 < su - ts then
        some (d.set (.Waiting uid name sex opinion su
          (min su (ts + SEARCH_UPDATE_INTERVAL)) wf),
          [Msg.UpdateSearchingMsg uid
            (round_up (su - ts) SEARCH_UPDATE_INTERVAL)])
      else none
    else if cmd = .SCHED then
      release_links (d.set (.Active uid name sex opinion ts)) ts state
        [Msg.SearchTimedOutMsg uid]
    else if cmd = .STOP_SEARCHING then
      release_links (d.set (.Inactive uid name sex opinion none)) ts state
        [Msg.AfterStopSearchMsg uid]
    else
      some (d, [Msg.UnexpectedReqMsg uid])
  | _ => none

/-- `bo_nedaber.handle_cmd_asked`. -/
def handle_cmd_asked (d : MemDb) (ts : Int) (uid : Uid) (name : String)
    (sex : Sex) (opinion : Opinion) (untilTs : Int) (asked_by : Uid)
    (cmd : Cmd) : Option (MemDb × List Msg) :=
  -- other = tx.get(state.asked_by); assert isinstance(other, Asking)
  match d.get asked_by with
  | other@(.Asking ouid oname osex oop _ _ _ _ owb) =>
    if cmd = .ANSWER_AVAILABLE then
      let msgs := [Msg.FoundPartnerMsg uid ouid oname osex,
        Msg.FoundPartnerMsg ouid uid name sex]
      let d1 := d.set (.Inactive uid name sex opinion
        (some (ts + SURVEY_DURATION)))
      let d2 := d1.set (.Inactive ouid oname osex oop
        (some (ts + SURVEY_DURATION)))
      match owb with
      | none => some (d2, msgs)
      | some w =>
        match d2.get w with
        | wst@(.Waiting _ _ _ _ _ _ _) =>
          match search_for_match d2 ts wst with
          | none => none
          | some (d3, _, msgs2) => some (d3, msgs ++ msgs2)
        | _ => none
    else if cmd = .ANSWER_UNAVAILABLE ∨ cmd = .SCHED then
      let d1 := d.set (.Inactive uid name sex opinion none)
      let msgs := if cmd = .ANSWER_UNAVAILABLE then
        [Msg.AfterReplyUnavailableMsg uid] else [Msg.AfterAskingTimedOut uid]
      match search_for_match d1 ts other with
      | none => none
      | some (d2, _, msgs2) => some (d2, msgs ++ msgs2)
    else
      some (d, [Msg.UnexpectedReqMsg uid])
  | _ => none

/-- `bo_nedaber.handle_cmd`: the top-level dispatch on the state tag. -/
def handle_cmd (state : UserState) (d : MemDb) (ts : Int) (cmd : Cmd) :
    Option (MemDb × List Msg) :=
  match state with
  | .InitialState uid => some (d, [Msg.UnexpectedReqMsg uid])
  | .WaitingForOpinion uid name =>
      some (handle_cmd_waiting_for_opinion d uid name cmd)
  | .WaitingForName uid _ _ _ => some (d, [Msg.UnexpectedReqMsg uid])
  | .Inactive uid name sex opinion survey_ts =>
      handle_cmd_inactive d ts uid name sex opinion survey_ts cmd
  | .Asking _ _ _ _ _ _ _ _ _ => handle_cmd_searching d ts state cmd
  | .Waiting _ _ _ _ _ _ _ => handle_cmd_searching d ts state cmd
  | .Asked uid name sex opinion untilTs asked_by =>
      handle_cmd_asked d ts uid name sex opinion untilTs asked_by cmd
  | .Active uid name sex opinion since =>
      handle_cmd_active d ts uid name sex opinion since cmd

/-- The derived-priority table as the spec states it, for comparison
with `get_search_score`: a candidate with the given opinion scores
`(1, searchingUntil)` when Waiting, `(2, askingUntil)` when Asking with
no waiter, `(3, -since)` when Active, and is not eligible otherwise. -/
def spec_derived_priority (s : UserState) (o : Opinion) :
    Option (Int × Int) :=
  match s with
  | .Waiting _ _ _ op searching_until _ _ =>
      if op = o then some (1, searching_until) else none
  | .Asking _ _ _ op _ _ _ asking_until waited_by =>
      if op = o ∧ waited_by = none then some (2, asking_until) else none
  | .Active _ _ _ op since =>
      if op = o then some (3, -since) else none
  | _ => none

def is_waiting_for_opinion : UserState → Bool
  | .WaitingForOpinion _ _ => true
  | _ => false

def is_asking : UserState → Bool
  | .Asking _ _ _ _ _ _ _ _ _ => true
  | _ => false

/-- The six registered tags that already hold an opinion. -/
def has_opinion (s : UserState) : Bool := s.withOp?.isSome

/-- The `(state, cmd)` pairs given a dedicated branch by the dispatch;
every other pair falls to the `Unexpected` fallback. -/
def handled_pair : UserState → Cmd → Bool
  | .InitialState _, _ => false
  | .WaitingForOpinion _ _, c =>
      decide (c = .MALE_PRO ∨ c = .MALE_CON ∨ c = .FEMALE_PRO ∨
        c = .FEMALE_CON)
  | .WaitingForName _ _ _ _, _ => false
  | .Inactive _ _ _ _ _, c =>
      decide (c = .IM_AVAILABLE_NOW ∨ c = .SCHED) || isSurveyCmd c
  | .Asking _ _ _ _ _ _ _ _ _, c => decide (c = .SCHED ∨ c = .STOP_SEARCHING)
  | .Waiting _ _ _ _ _ _ _, c => decide (c = .SCHED ∨ c = .STOP_SEARCHING)
  | .Active _ _ _ _ _, c =>
      decide (c = .IM_AVAILABLE_NOW ∨ c = .IM_NO_LONGER_AVAILABLE)
  | .Asked _ _ _ _ _ _, c =>
      decide (c = .ANSWER_AVAILABLE ∨ c = .ANSWER_UNAVAILABLE ∨ c = .SCHED)

/-- The link invariant the `Asked` dispatch asserts before reading the
command: the asking partner's row is an `Asking` state. -/
def asked_link_ok (d : MemDb) : UserState → Bool
  | .Asked _ _ _ _ _ asked_by => is_asking (d.get asked_by)
  | _ => true

/-- Index coherence (spec §3, Invariants): both indices contain exactly
the uids whose derived attribute is defined, keyed by it. -/
def Coherent (d : MemDb) : Prop :=
  (∀ u, alookup d.by_sched u =
    (alookup d.states u).bind UserState.sched) ∧
  (∀ o u, alookup (d.by_score o) u =
    (alookup d.states u).bind (fun s => get_search_score s o))

/-- `d'` adds no `WaitingForOpinion` row that `d` did not already hold. -/
def NoNewWFO (d d' : MemDb) : Prop :=
  ∀ u st, alookup d'.states u = some st →
    is_waiting_for_opinion st = true → alookup d.states u = some st

-- Concrete stores for the closed claims.

/-- Seed scenario 3 (all sexes MALE): u1 asking u2, u2 asked, u3 active. -/
def db_scn3 : MemDb :=
  ((MemDb.empty.set (.Asking 1 "1" .MALE .PRO 30 13 2 15 none)).set
    (.Asked 2 "2" .MALE .CON 15 1)).set (.Active 3 "3" .MALE .CON 0)

/-- A store satisfying link symmetry where u2 is a reserved Waiting user:
`Waiting(2, waitingFor=1)` and `Asking(1, waitedBy=2)`; u3 is an idle
registered user about to search. -/
def db_reserved : MemDb :=
  ((MemDb.empty.set (.Asking 1 "1" .MALE .PRO 30 13 5 15 (some 2))).set
    (.Waiting 2 "2" .MALE .CON 20 15 (some 1))).set
    (.Inactive 3 "3" .MALE .PRO none)

/-- A store holding a single eligible Asking candidate with no waiter. -/
def db_one_asking : MemDb :=
  MemDb.empty.set (.Asking 1 "1" .MALE .PRO 30 13 5 15 none)

-- Association-list lemmas.

theorem alookup_upsert {β : Type} (l : List (Uid × β)) (k : Uid) (v : β)
    (u : Uid) :
    alookup (upsert l k v) u = if k = u then some v else alookup l u := by
  induction l with
  | nil => simp [upsert, alookup]
  | cons p t ih =>
    obtain ⟨k1, v1⟩ := p
    by_cases h1 : k1 = k
    · subst h1
      simp only [upsert, if_pos rfl, alookup]
      split_ifs <;> simp_all
    · simp only [upsert, if_neg h1, alookup, ih]
      split_ifs <;> simp_all

theorem alookup_removeKey {β : Type} (l : List (Uid × β)) (k : Uid)
    (u : Uid) :
    alookup (removeKey l k) u = if k = u then none else alookup l u := by
  induction l with
  | nil => simp [removeKey, alookup]
  | cons p t ih =>
    obtain ⟨k1, v1⟩ := p
    by_cases h1 : k1 = k
    · subst h1
      simp only [removeKey, List.filter_cons] at *
      simp only [alookup] at *
      split_ifs <;> simp_all
    · simp only [removeKey, List.filter_cons] at *
      have : (decide ((k1, v1).1 ≠ k)) = true := by simp [h1]
      rw [this]
      simp only [if_true, alookup, ih]
      split_ifs <;> simp_all

theorem upsert_idem {β : Type} (l : List (Uid × β)) (k : Uid) (v : β) :
    upsert (upsert l k v) k v = upsert l k v := by
  induction l with
  | nil => simp [upsert]
  | cons p t ih =>
    obtain ⟨k1, v1⟩ := p
    by_cases h1 : k1 = k
    · subst h1
      simp [upsert]
    · simp [upsert, h1, ih]

theorem removeKey_idem {β : Type} (l : List (Uid × β)) (k : Uid) :
    removeKey (removeKey l k) k = removeKey l k := by
  simp only [removeKey, List.filter_filter]
  apply List.filter_congr
  intro p _
  simp

theorem minEntry_mem (l : List (Uid × (Int × Int))) (e : Uid × (Int × Int))
    (h : minEntry l = some e) : e ∈ l := by
  induction l generalizing e with
  | nil => simp [minEntry] at h
  | cons p t ih =>
    simp only [minEntry] at h
    rcases hm : minEntry t with _ | e2 <;> rw [hm] at h <;> dsimp only at h
    · cases h
      exact List.mem_cons_self _ _
    · split_ifs at h <;> cases h
      · exact List.mem_cons_self _ _
      · exact List.mem_cons_of_mem _ (ih _ hm)

theorem alookup_isSome_of_mem {β : Type} (l : List (Uid × β)) (k : Uid)
    (v : β) (h : (k, v) ∈ l) : (alookup l k).isSome = true := by
  induction l with
  | nil => simp at h
  | cons p t ih =>
    obtain ⟨k1, v1⟩ := p
    rcases List.mem_cons.1 h with h1 | h1
    · cases h1
      simp [alookup]
    · by_cases h2 : k1 = k <;> simp [alookup, h2, ih h1]

/-- C1: Refuse-ask with fallback (seed scenario 3). With
u1 = Asking(PRO, searchingUntil 30, nextRefresh 13, askedUid u2,
askingUntil 15, no waiter), u2 = Asked(CON, until 15, askedBy u1),
u3 = Active(CON, since 0), handling `ANSWER_UNAVAILABLE` for u2 at
ts = 10 returns exactly `AfterReplyUnavailableMsg` to u2 and
`AreYouAvailableMsg(MALE)` to u3, and leaves
u1 = Asking(..., askedUid u3, askingUntil 29), u2 = Inactive(no survey),
u3 = Asked(until 29, askedBy u1). -/
theorem claim_C1 :
    (handle_cmd (.Asked 2 "2" .MALE .CON 15 1) db_scn3 10
      .ANSWER_UNAVAILABLE).map
      (fun p => (p.2, p.1.get 1, p.1.get 2, p.1.get 3)) =
    some ([Msg.AfterReplyUnavailableMsg 2, Msg.AreYouAvailableMsg 3 .MALE],
      UserState.Asking 1 "1" .MALE .PRO 30 13 3 29 none,
      UserState.Inactive 2 "2" .MALE .CON none,
      UserState.Asked 3 "3" .MALE .CON 29 1) := by
  rfl

/-- C2: the reservation-break branch of `search_for_match` crashes
instead of clearing the reservation. In `db_reserved`, link symmetry
holds (`Waiting(2, waitingFor = 1)`, `Asking(1, waitedBy = 2)`), and a
search for the idle user u3 selects the Waiting user u2; the branch then
asserts `state3.waited_by == state2.waiting_for`, which compares u1's
waiter (u2) against u1 itself and fails, so the whole call crashes
(`none`) instead of matching u3 with u2. -/
theorem claim_C2_eval :
    search_for_match db_reserved 0 (.Inactive 3 "3" .MALE .PRO none) =
      none := by
  rfl

/-- C3: the derived priority computed by `get_search_score` agrees with
the spec's table in every case: `(1, searchingUntil)` for a Waiting
state of the given opinion, `(2, askingUntil)` for an Asking state with
no waiter, `(3, -since)` for an Active state, and undefined otherwise. -/
theorem claim_C3 (s : UserState) (o : Opinion) :
    get_search_score s o = spec_derived_priority s o := by
  cases s <;> rfl

/-- C5: countdown refresh. For a Searching state (either variant) with
`searchingUntil > ts`, handling `SCHED` sets `nextRefresh` to
`min searchingUntil (ts + SEARCH_UPDATE_INTERVAL)`, leaves every other
field unchanged, and returns exactly one `UpdateSearchingMsg` whose
`secondsLeft` is `round_up (searchingUntil - ts) SEARCH_UPDATE_INTERVAL`,
which equals the ceiling of `(searchingUntil - ts) / interval` times the
interval (`-((-n) / m)` is the ceiling of `n / m` for `m > 0`). -/
theorem claim_C5 (d : MemDb) (ts : Int) (uid : Uid) (name : String)
    (sex : Sex) (opinion : Opinion) (su nr : Int) (asked_uid : Uid)
    (au : Int) (wb wf : Option Uid) (h : ts < su) :
    handle_cmd (.Asking uid name sex opinion su nr asked_uid au wb) d ts
      .SCHED = some (d.set (.Asking uid name sex opinion su
        (min su (ts + SEARCH_UPDATE_INTERVAL)) asked_uid au wb),
      [Msg.UpdateSearchingMsg uid
        (round_up (su - ts) SEARCH_UPDATE_INTERVAL)]) ∧
    handle_cmd (.Waiting uid name sex opinion su nr wf) d ts .SCHED =
      some (d.set (.Waiting uid name sex opinion su
        (min su (ts + SEARCH_UPDATE_INTERVAL)) wf),
      [Msg.UpdateSearchingMsg uid
        (round_up (su - ts) SEARCH_UPDATE_INTERVAL)]) ∧
    round_up (su - ts) SEARCH_UPDATE_INTERVAL =
      SEARCH_UPDATE_INTERVAL *
        (-((-(su - ts)) / SEARCH_UPDATE_INTERVAL)) := by
  have h2 : (0 : Int) < su - ts := by omega
  refine ⟨?_, ?_, ?_⟩
  · simp [handle_cmd, handle_cmd_searching, h, h2]
  · simp [handle_cmd, handle_cmd_searching, h, h2]
  · simp only [round_up, SEARCH_UPDATE_INTERVAL]
    omega

/-- Witness for C5 at `ts = 10`, `searchingUntil = 40`. -/
theorem claim_C5_witness :
    (10 : Int) < 40 ∧
    round_up ((40 : Int) - 10) SEARCH_UPDATE_INTERVAL =
      SEARCH_UPDATE_INTERVAL *
        (-((-((40 : Int) - 10)) / SEARCH_UPDATE_INTERVAL)) :=
  ⟨by norm_num,
    (claim_C5 MemDb.empty 10 1 "1" Sex.MALE Opinion.PRO 40 10 2 29 none
      none (by norm_num)).2.2⟩

/-- C8: `set` is idempotent. Re-running `set` with the identical state
leaves the state map, both per-opinion score maps, and the sched map
exactly as a single `set` does. -/
theorem claim_C8 (d : MemDb) (s : UserState) :
    (d.set s).set s = d.set s := by
  simp only [MemDb.set]
  rcases hs : s.sched with _ | t <;>
    rcases hp : get_search_score s .PRO with _ | sp <;>
    rcases hc : get_search_score s .CON with _ | sc <;>
    simp [hs, hp, hc, upsert_idem, removeKey_idem]

/-- C9: for every Inactive state, including one with no scheduled
survey, handling `SCHED` rewrites the state to Inactive with
`survey_ts = none` (other fields unchanged) and returns exactly
`[HowWasTheCallMsg uid]`: the prompt is unconditional on `SCHED`. -/
theorem claim_C9 (d : MemDb) (ts : Int) (uid : Uid) (name : String)
    (sex : Sex) (opinion : Opinion) (survey_ts : Option Int) :
    handle_cmd (.Inactive uid name sex opinion survey_ts) d ts .SCHED =
      some (d.set (.Inactive uid name sex opinion none),
        [Msg.HowWasTheCallMsg uid]) := by
  rfl

theorem coherent_empty : Coherent MemDb.empty := by
  constructor
  · intro u
    rfl
  · intro o u
    cases o <;> rfl

theorem coherent_set (d : MemDb) (s : UserState) (h : Coherent d) :
    Coherent (d.set s) := by
  obtain ⟨h1, h2⟩ := h
  constructor
  · intro u
    by_cases hu : s.uid = u <;>
      rcases hs : s.sched with _ | t <;>
      simp [MemDb.set, hs, alookup_removeKey, alookup_upsert, hu, h1 u]
  · intro o u
    have h2p := h2 Opinion.PRO u
    have h2c := h2 Opinion.CON u
    simp only [MemDb.by_score] at h2p h2c
    cases o with
    | PRO =>
      simp only [MemDb.by_score]
      rcases hsc : get_search_score s .PRO with _ | sc <;>
        by_cases hu : s.uid = u <;>
        simp [MemDb.set, hsc, alookup_removeKey, alookup_upsert, hu, h2p]
    | CON =>
      simp only [MemDb.by_score]
      rcases hsc : get_search_score s .CON with _ | sc <;>
        by_cases hu : s.uid = u <;>
        simp [MemDb.set, hsc, alookup_removeKey, alookup_upsert, hu, h2c]

theorem coherent_foldl (ss : List UserState) (d : MemDb)
    (h : Coherent d) : Coherent (ss.foldl MemDb.set d) := by
  induction ss generalizing d with
  | nil => exact h
  | cons s t ih => exact ih _ (coherent_set d s h)

/-- C4: index coherence. After any finite sequence of `set` calls
starting from the empty store, each per-opinion score index contains
exactly the uids whose derived priority for that opinion is defined,
keyed by that score, and the sched index contains exactly the uids
whose `sched` attribute is defined, keyed by it. -/
theorem claim_C4 (ss : List UserState) :
    Coherent (ss.foldl MemDb.set MemDb.empty) :=
  coherent_foldl ss MemDb.empty coherent_empty

/-- C10: under index coherence, a candidate returned by
`search_for_user` that is an Asking state always has no waiter, so the
assertion guarding the reservation branch of `search_for_match` cannot
fail. -/
theorem claim_C10 (d : MemDb) (o : Opinion) (uid : Uid) (name : String)
    (sex : Sex) (opinion : Opinion) (su nr : Int) (asked_uid : Uid)
    (au : Int) (wb : Option Uid) (h1 : Coherent d)
    (h2 : search_for_user d o = some (some
      (.Asking uid name sex opinion su nr asked_uid au wb))) :
    wb = none := by
  unfold search_for_user at h2
  rcases hm : minEntry (d.by_score o) with _ | ⟨u, v⟩ <;>
    rw [hm] at h2 <;> dsimp only at h2
  · exact absurd h2 (by simp)
  · rcases hl : alookup d.states u with _ | st <;>
      rw [hl] at h2 <;> dsimp only at h2
    · exact absurd h2 (by simp)
    · split_ifs at h2 with hc
      · injection h2 with h2
        injection h2 with h2
        subst h2
        have hsome := alookup_isSome_of_mem _ _ _ (minEntry_mem _ _ hm)
        have hco := h1.2 o u
        rw [hl] at hco
        rcases wb with _ | w
        · rfl
        · exfalso
          rw [hco] at hsome
          simp [get_search_score] at hsome

/-- Witness for C10: a coherent store with one eligible Asking user. -/
theorem claim_C10_witness :
    Coherent db_one_asking ∧
    search_for_user db_one_asking .PRO =
      some (some (.Asking 1 "1" .MALE .PRO 30 13 5 15 none)) ∧
    (none : Option Uid) = none := by
  have hcoh : Coherent db_one_asking := coherent_set _ _ coherent_empty
  exact ⟨hcoh, rfl,
    claim_C10 db_one_asking .PRO 1 "1" .MALE .PRO 30 13 5 15 none hcoh rfl⟩

/-- C6: unexpected input is total and atomic. For every `(state, cmd)`
pair outside the handled combinations of the dispatch, and any store
satisfying the asserted link invariant for `Asked` states (the asking
partner's row is an `Asking` state, which the `Asked` handler asserts
before reading the command), `handle_cmd` returns exactly
`[UnexpectedReqMsg uid]` and leaves the store untouched. -/
theorem claim_C6 (s : UserState) (d : MemDb) (ts : Int) (cmd : Cmd)
    (h1 : handled_pair s cmd = false) (h2 : asked_link_ok d s = true) :
    handle_cmd s d ts cmd = some (d, [Msg.UnexpectedReqMsg s.uid]) := by
  cases s with
  | InitialState uid => rfl
  | WaitingForOpinion uid name =>
    cases cmd <;> simp_all [handled_pair, handle_cmd,
      handle_cmd_waiting_for_opinion, UserState.uid]
  | WaitingForName uid name sex opinion => rfl
  | Inactive uid name sex opinion survey_ts =>
    cases cmd <;> simp_all [handled_pair, isSurveyCmd, handle_cmd,
      handle_cmd_inactive, UserState.uid]
  | Asking uid name sex opinion su nr asked_uid au wb =>
    cases cmd <;> simp_all [handled_pair, handle_cmd,
      handle_cmd_searching, UserState.uid]
  | Waiting uid name sex opinion su nr wf =>
    cases cmd <;> simp_all [handled_pair, handle_cmd,
      handle_cmd_searching, UserState.uid]
  | Active uid name sex opinion since =>
    cases cmd <;> simp_all [handled_pair, handle_cmd,
      handle_cmd_active, UserState.uid]
  | Asked uid name sex opinion untilTs asked_by =>
    have h3 : is_asking (d.get asked_by) = true := h2
    rcases hg : d.get asked_by with _ | _ | _ | _ |
      ⟨ouid, oname, osex, oop, osu, onr, oasked, oau, owb⟩ | _ | _ | _ <;>
      rw [hg] at h3 <;> simp [is_asking] at h3
    simp only [handle_cmd, handle_cmd_asked, hg]
    cases cmd <;> simp_all [handled_pair, UserState.uid]

/-- Witness for C6: a survey command sent while being asked. -/
theorem claim_C6_witness :
    handled_pair (.Asked 2 "2" .MALE .CON 15 1) .S1 = false ∧
    asked_link_ok db_scn3 (.Asked 2 "2" .MALE .CON 15 1) = true ∧
    handle_cmd (.Asked 2 "2" .MALE .CON 15 1) db_scn3 0 .S1 =
      some (db_scn3, [Msg.UnexpectedReqMsg 2]) :=
  ⟨rfl, rfl, claim_C6 (.Asked 2 "2" .MALE .CON 15 1) db_scn3 0 .S1 rfl rfl⟩

theorem nw_refl (d : MemDb) : NoNewWFO d d := fun _ _ h _ => h

theorem nw_trans {d1 d2 d3 : MemDb} (a : NoNewWFO d1 d2)
    (b : NoNewWFO d2 d3) : NoNewWFO d1 d3 :=
  fun u st h hw => a u st (b u st h hw) hw

theorem nw_set (d : MemDb) (s : UserState)
    (h : is_waiting_for_opinion s = false) : NoNewWFO d (d.set s) := by
  intro u st hl hw
  have he : alookup (MemDb.set d s).states u =
      alookup (upsert d.states s.uid s) u := rfl
  rw [he, alookup_upsert] at hl
  split_ifs at hl with hif
  · injection hl with hl
    subst hl
    rw [h] at hw
    exact Bool.noConfusion hw
  · exact hl

theorem nw_set_set (d : MemDb) (s1 s2 : UserState)
    (h1 : is_waiting_for_opinion s1 = false)
    (h2 : is_waiting_for_opinion s2 = false) :
    NoNewWFO d ((d.set s1).set s2) :=
  nw_trans (nw_set d s1 h1) (nw_set _ s2 h2)

theorem search_for_match_nw (d : MemDb) (ts : Int) (s : UserState)
    (r : MemDb × Bool × List Msg) (h : search_for_match d ts s = some r) :
    NoNewWFO d r.1 := by
  unfold search_for_match at h
  repeat' first
    | split at h
    | dsimp only at h
  all_goals first
    | exact Option.noConfusion h
    | (injection h with h; subst h;
       first
       | exact nw_set d _ (by rfl)
       | exact nw_set_set _ _ _ (by rfl) (by rfl)
       | exact nw_trans (nw_set d _ (by rfl))
           (nw_set_set _ _ _ (by rfl) (by rfl)))

theorem release_links_nw (d1 : MemDb) (ts : Int) (s : UserState)
    (msgs : List Msg) (r : MemDb × List Msg)
    (h : release_links d1 ts s msgs = some r) : NoNewWFO d1 r.1 := by
  unfold release_links at h
  repeat' first
    | split at h
    | dsimp only at h
  all_goals first
    | exact Option.noConfusion h
    | (injection h with h; subst h;
       first
       | exact nw_refl d1
       | exact nw_set d1 _ (by rfl)
       | (refine nw_trans ?_ (search_for_match_nw _ _ _ _ (by assumption))
          exact nw_set _ _ (by rfl)))

theorem handle_cmd_searching_nw (d : MemDb) (ts : Int) (state : UserState)
    (cmd : Cmd) (r : MemDb × List Msg)
    (h : handle_cmd_searching d ts state cmd = some r) : NoNewWFO d r.1 := by
  unfold handle_cmd_searching at h
  repeat' first
    | split at h
    | dsimp only at h
  all_goals first
    | exact Option.noConfusion h
    | exact nw_trans (nw_set d _ (by rfl)) (release_links_nw _ _ _ _ _ h)
    | (injection h with h; subst h;
       first
       | exact nw_refl d
       | exact nw_set d _ (by rfl))

theorem handle_cmd_inactive_nw (d : MemDb) (ts : Int) (uid : Uid)
    (name : String) (sex : Sex) (opinion : Opinion)
    (survey_ts : Option Int) (cmd : Cmd) (r : MemDb × List Msg)
    (h : handle_cmd_inactive d ts uid name sex opinion survey_ts cmd =
      some r) : NoNewWFO d r.1 := by
  unfold handle_cmd_inactive at h
  repeat' first
    | split at h
    | dsimp only at h
  all_goals first
    | exact Option.noConfusion h
    | (injection h with h; subst h;
       first
       | exact nw_refl d
       | exact nw_set d _ (by rfl)
       | exact search_for_match_nw _ _ _ _ (by assumption))

theorem handle_cmd_active_nw (d : MemDb) (ts : Int) (uid : Uid)
    (name : String) (sex : Sex) (opinion : Opinion) (since : Int)
    (cmd : Cmd) (r : MemDb × List Msg)
    (h : handle_cmd_active d ts uid name sex opinion since cmd = some r) :
    NoNewWFO d r.1 := by
  unfold handle_cmd_active at h
  repeat' first
    | split at h
    | dsimp only at h
  all_goals first
    | exact Option.noConfusion h
    | (injection h with h; subst h;
       first
       | exact nw_refl d
       | exact nw_set d _ (by rfl)
       | exact search_for_match_nw _ _ _ _ (by assumption))

theorem handle_cmd_asked_nw (d : MemDb) (ts : Int) (uid : Uid)
    (name : String) (sex : Sex) (opinion : Opinion) (untilTs : Int)
    (asked_by : Uid) (cmd : Cmd) (r : MemDb × List Msg)
    (h : handle_cmd_asked d ts uid name sex opinion untilTs asked_by cmd =
      some r) : NoNewWFO d r.1 := by
  unfold handle_cmd_asked at h
  repeat' first
    | split at h
    | dsimp only at h
  all_goals first
    | exact Option.noConfusion h
    | (injection h with h; subst h;
       first
       | exact nw_refl d
       | exact nw_set d _ (by rfl)
       | exact nw_set_set _ _ _ (by rfl) (by rfl)
       | (refine nw_trans ?_ (search_for_match_nw _ _ _ _ (by assumption))
          first
          | exact nw_set d _ (by rfl)
          | exact nw_set_set _ _ _ (by rfl) (by rfl)))

/-- C7: registration is one-way. For every state that already holds an
opinion and every command, no state written by `handle_cmd` (including
states written for other uids during chained re-searches) is a
`WaitingForOpinion` state: any `WaitingForOpinion` row in the resulting
store was already present before. -/
theorem claim_C7 (s : UserState) (d : MemDb) (ts : Int) (cmd : Cmd)
    (hop : has_opinion s = true) (r : MemDb × List Msg)
    (h : handle_cmd s d ts cmd = some r) : NoNewWFO d r.1 := by
  cases s with
  | InitialState uid => simp [has_opinion, UserState.withOp?] at hop
  | WaitingForOpinion uid name =>
    simp [has_opinion, UserState.withOp?] at hop
  | WaitingForName uid name sex opinion =>
    injection h with h
    subst h
    exact nw_refl d
  | Inactive uid name sex opinion survey_ts =>
    exact handle_cmd_inactive_nw d ts uid name sex opinion survey_ts cmd r h
  | Asking uid name sex opinion su nr asked_uid au wb =>
    exact handle_cmd_searching_nw d ts
      (.Asking uid name sex opinion su nr asked_uid au wb) cmd r h
  | Waiting uid name sex opinion su nr wf =>
    exact handle_cmd_searching_nw d ts
      (.Waiting uid name sex opinion su nr wf) cmd r h
  | Active uid name sex opinion since =>
    exact handle_cmd_active_nw d ts uid name sex opinion since cmd r h
  | Asked uid name sex opinion untilTs asked_by =>
    exact handle_cmd_asked_nw d ts uid name sex opinion untilTs asked_by
      cmd r h

/-- Witness for C7: a survey reply from an idle registered user. -/
theorem claim_C7_witness :
    has_opinion (.Inactive 1 "1" .MALE .PRO none) = true ∧
    NoNewWFO MemDb.empty MemDb.empty :=
  ⟨rfl, claim_C7 (.Inactive 1 "1" .MALE .PRO none) MemDb.empty 0 .S1 rfl
    (MemDb.empty, [Msg.ThanksForAnsweringMsg 1 .S1]) rfl⟩

end BoNedaber
